import Mathlib

/-!
Verification of the procedural tree-growth model of the Trimer study timer
(source: src/__main__.py).  The embedding below translates the growth core:
the easing function, the randomized configuration generator of Tree.generate,
the size closures, and the geometry emitted by Tree._draw / GreenTree._draw /
Tree.draw.  Randomness is modelled by a tape of unit draws in [0,1]; the
Python call random.uniform(a, b) is a + (b - a) * r with r the unit draw, and
the Python round builtin is round-half-to-even.
-/

open Real

namespace Trimer

/-- Embedding of smoothen_curve from the source: (sin((x - 1/2) * pi) + 1) / 2. -/
noncomputable def smoothen_curve (x : ℝ) : ℝ :=
  (Real.sin ((x - 1 / 2) * Real.pi) + 1) / 2

lemma smoothen_curve_zero : smoothen_curve 0 = 0 := by
  unfold smoothen_curve
  rw [show ((0 : ℝ) - 1 / 2) * Real.pi = -(Real.pi / 2) by ring, Real.sin_neg,
    Real.sin_pi_div_two]
  norm_num

lemma smoothen_curve_one : smoothen_curve 1 = 1 := by
  unfold smoothen_curve
  rw [show ((1 : ℝ) - 1 / 2) * Real.pi = Real.pi / 2 by ring, Real.sin_pi_div_two]
  norm_num

lemma smoothen_curve_half : smoothen_curve (1 / 2) = 1 / 2 := by
  unfold smoothen_curve
  rw [show ((1 / 2 : ℝ) - 1 / 2) * Real.pi = 0 by ring, Real.sin_zero]
  norm_num

lemma smoothen_curve_mono {x y : ℝ} (hx : x ∈ Set.Icc (0 : ℝ) 1)
    (hy : y ∈ Set.Icc (0 : ℝ) 1) (hxy : x ≤ y) :
    smoothen_curve x ≤ smoothen_curve y := by
  unfold smoothen_curve
  have hpi := Real.pi_pos
  have h1 : -(Real.pi / 2) ≤ (x - 1 / 2) * Real.pi := by nlinarith [hx.1, hx.2]
  have h2 : (y - 1 / 2) * Real.pi ≤ Real.pi / 2 := by nlinarith [hy.1, hy.2]
  have h3 : (x - 1 / 2) * Real.pi ≤ (y - 1 / 2) * Real.pi := by nlinarith
  have := Real.sin_le_sin_of_le_of_le_pi_div_two h1 h2 h3
  linarith

/-- C1: the easing function smoothen_curve satisfies smoothen_curve 0 = 0,
smoothen_curve 1 = 1, smoothen_curve (1/2) = 1/2, and is monotonically
non-decreasing on the unit interval. -/
theorem c1_smoothen_curve_spec :
    smoothen_curve 0 = 0 ∧ smoothen_curve 1 = 1 ∧ smoothen_curve (1 / 2) = 1 / 2 ∧
      ∀ x y : ℝ, x ∈ Set.Icc (0 : ℝ) 1 → y ∈ Set.Icc (0 : ℝ) 1 → x ≤ y →
        smoothen_curve x ≤ smoothen_curve y :=
  ⟨smoothen_curve_zero, smoothen_curve_one, smoothen_curve_half,
    fun _ _ hx hy hxy => smoothen_curve_mono hx hy hxy⟩

/-- Witness for C1 at the concrete pair x = 1/4, y = 3/4. -/
theorem c1_smoothen_curve_spec_witness :
    smoothen_curve 0 = 0 ∧ smoothen_curve (1 / 4) ≤ smoothen_curve (3 / 4) :=
  ⟨c1_smoothen_curve_spec.1,
    c1_smoothen_curve_spec.2.2.2 (1 / 4) (3 / 4)
      (Set.mem_Icc.mpr (by norm_num)) (Set.mem_Icc.mpr (by norm_num)) (by norm_num)⟩

/-- Embedding of math.degrees: radians times 180 over pi. -/
noncomputable def degrees (r : ℝ) : ℝ := r * 180 / Real.pi

/-- The Python call random.uniform(a, b) is a + (b - a) * random(), with
random() a unit draw in [0,1] supplied by the tape. -/
def uniformDraw (a b u : ℝ) : ℝ := a + (b - a) * u

lemma uniformDraw_mem {a b u : ℝ} (hab : a ≤ b) (h0 : 0 ≤ u) (h1 : u ≤ 1) :
    a ≤ uniformDraw a b u ∧ uniformDraw a b u ≤ b := by
  unfold uniformDraw
  constructor <;> nlinarith

/-- The Python round builtin: round half to even, on exact reals. -/
noncomputable def pyRound (x : ℝ) : ℤ :=
  if Int.fract x = 1 / 2 then (if 2 ∣ ⌊x⌋ then ⌊x⌋ else ⌊x⌋ + 1) else round x

lemma pyRound_one : pyRound 1 = 1 := by
  unfold pyRound
  rw [show (1 : ℝ) = ((1 : ℤ) : ℝ) by norm_num, Int.fract_intCast]
  norm_num

lemma pyRound_two : pyRound 2 = 2 := by
  unfold pyRound
  rw [show (2 : ℝ) = ((2 : ℤ) : ℝ) by norm_num, Int.fract_intCast]
  norm_num

lemma pyRound_mem_of_Icc {x : ℝ} (h1 : 1 ≤ x) (h2 : x ≤ 2) :
    pyRound x = 1 ∨ pyRound x = 2 := by
  unfold pyRound
  have hf1 : (1 : ℤ) ≤ ⌊x⌋ := by
    rw [Int.le_floor]; exact_mod_cast h1
  split
  · rename_i hfr
    have hxval : x = (⌊x⌋ : ℝ) + 1 / 2 := by
      have := Int.fract_add_floor x
      rw [hfr] at this
      linarith
    have hf2 : ⌊x⌋ ≤ 1 := by
      by_contra hcon
      push_neg at hcon
      have : (2 : ℝ) ≤ (⌊x⌋ : ℝ) := by exact_mod_cast hcon
      linarith
    have hfe : ⌊x⌋ = 1 := le_antisymm hf2 hf1
    rw [hfe]
    norm_num
  · rw [round_eq]
    have hlo : (1 : ℤ) ≤ ⌊x + 1 / 2⌋ := by
      rw [Int.le_floor]; push_cast; linarith
    have hhi : ⌊x + 1 / 2⌋ ≤ 2 := by
      have : ⌊x + 1 / 2⌋ < 3 := by
        rw [Int.floor_lt]; push_cast; linarith
      omega
    omega

/-- The tape of unit random draws consumed by one call to Tree.generate:
one draw each for the width and height coefficients and the branch count,
and per-branch draws for the position, the orientation magnitude, and the
coin flip (random() compared against 0.5). -/
structure RandomTape where
  wcU : ℝ
  hcU : ℝ
  countU : ℝ
  posU : ℕ → ℝ
  magU : ℕ → ℝ
  coinU : ℕ → ℝ

/-- All unit draws of the tape lie in [0,1], as the Python random() call
guarantees. -/
def RandomTape.Valid (t : RandomTape) : Prop :=
  t.wcU ∈ Set.Icc (0 : ℝ) 1 ∧ t.hcU ∈ Set.Icc (0 : ℝ) 1 ∧
    t.countU ∈ Set.Icc (0 : ℝ) 1 ∧ (∀ i, t.posU i ∈ Set.Icc (0 : ℝ) 1) ∧
    (∀ i, t.magU i ∈ Set.Icc (0 : ℝ) 1)

/-- The per-instance fields set by Tree.generate (the GrowthConfig). -/
structure TreeConfig where
  age_coefficient : ℝ
  width_coefficient : ℝ
  height_coefficient : ℝ
  branches : List (ℝ × ℝ)

/-- Embedding of Tree.generate: derives age_coefficient from maxAge, draws the
width and height coefficients from uniform(0.9, 1.1), the branch count from
round(uniform(1, 2 * age_coefficient)), and per branch a position from
uniform(wc * 0.45, wc * 0.55) and an orientation whose sign is fixed when the
branch count is 2 (minus for index 0, plus for index 1) and a coin flip
otherwise, with a fresh magnitude acos(uniform(0.4, 0.6)) drawn per branch. -/
noncomputable def Tree.generate (maxAge : ℝ) (t : RandomTape) : TreeConfig :=
  let age_coefficient := (maxAge + 1) / 2
  let width_coefficient := uniformDraw 0.9 1.1 t.wcU
  let height_coefficient := uniformDraw 0.9 1.1 t.hcU
  let branch_count := pyRound (uniformDraw 1 (2 * age_coefficient) t.countU)
  { age_coefficient := age_coefficient
    width_coefficient := width_coefficient
    height_coefficient := height_coefficient
    branches :=
      (List.range branch_count.toNat).map fun i =>
        (uniformDraw (width_coefficient * 0.45) (width_coefficient * 0.55) (t.posU i),
          (if branch_count = 2 then ((i : ℝ) - 1 / 2) * 2
            else if t.coinU i < 0.5 then -1 else 1) *
            Real.arccos (uniformDraw 0.4 0.6 (t.magU i))) }

/-- Size closure base_width: width / 15 * width_coefficient * age_coefficient. -/
noncomputable def base_width (c : TreeConfig) (width : ℝ) : ℝ :=
  width / 15 * c.width_coefficient * c.age_coefficient

/-- Size closure base_height: height / 1.7 * height_coefficient * age_coefficient. -/
noncomputable def base_height (c : TreeConfig) (height : ℝ) : ℝ :=
  height / 1.7 * c.height_coefficient * c.age_coefficient

/-- Size closure branch_width: width / 18 * width_coefficient * age_coefficient. -/
noncomputable def branch_width (c : TreeConfig) (width : ℝ) : ℝ :=
  width / 18 * c.width_coefficient * c.age_coefficient

/-- Size closure branch_height: height / 2.7 * height_coefficient * age_coefficient. -/
noncomputable def branch_height (c : TreeConfig) (height : ℝ) : ℝ :=
  height / 2.7 * c.height_coefficient * c.age_coefficient

/-- Size closure green_width of GreenTree.generate. -/
noncomputable def green_width (c : TreeConfig) (width : ℝ) : ℝ :=
  width / 3 * c.width_coefficient * c.age_coefficient

/-- Size closure green_height of GreenTree.generate. -/
noncomputable def green_height (c : TreeConfig) (height : ℝ) : ℝ :=
  height / 1.2 * c.height_coefficient * c.age_coefficient

/-- One drawPolygon call: the brush colour in effect, the painter translation
and rotation (in degrees) active for the call, and the polygon vertices in
local coordinates as passed to drawPolygon. -/
structure Prim where
  brushColor : ℕ × ℕ × ℕ
  translate : ℝ × ℝ
  rotateDeg : ℝ
  vertices : List (ℝ × ℝ)

instance : Inhabited Prim := ⟨⟨(0, 0, 0), (0, 0), 0, []⟩⟩

/-- Embedding of Tree._draw: the brown trunk triangle followed by one brown
triangle per branch, each branch drawn inside a save/translate/rotate/restore
block, with the branch age adjusted to age squared. -/
noncomputable def Tree._draw (c : TreeConfig) (age width height : ℝ) : List Prim :=
  { brushColor := (77, 51, 0)
    translate := (0, 0)
    rotateDeg := 0
    vertices := [(-(base_width c width * smoothen_curve age), 0),
      (base_width c width * smoothen_curve age, 0),
      (0, base_height c height * smoothen_curve age)] } ::
  c.branches.map fun hr =>
    let adjusted_age := age ^ 2
    { brushColor := (77, 51, 0)
      translate := (0, base_height c (height * hr.1 * smoothen_curve age))
      rotateDeg := degrees hr.2
      vertices := [(-(branch_width c width * smoothen_curve adjusted_age * (1 - hr.1)), 0),
        (branch_width c width * smoothen_curve adjusted_age * (1 - hr.1), 0),
        (0, branch_height c height * smoothen_curve adjusted_age * (1 - hr.1))] }

/-- Embedding of GreenTree._draw: the green foliage triangle (apex clamped to
95 percent of the canvas height) followed by everything Tree._draw emits. -/
noncomputable def GreenTree._draw (c : TreeConfig) (age width height : ℝ) : List Prim :=
  let offset := base_height c (height * 0.3 * smoothen_curve age)
  { brushColor := (0, 119, 0)
    translate := (0, 0)
    rotateDeg := 0
    vertices := [(-(green_width c width * smoothen_curve age), offset),
      (green_width c width * smoothen_curve age, offset),
      (0, min (green_height c height * smoothen_curve age + offset) (height * 0.95))] } ::
  Tree._draw c age width height

/-- The two tree classes of the source. -/
inductive Species where
  | plain
  | green

/-- The mutable object state: the class, the current age (initially 0), the
max age (initially None), and the fields set by generate (absent until the
first generate call). -/
structure Tree where
  species : Species
  age : ℝ
  maxAge : Option ℝ
  config : Option TreeConfig

/-- A freshly constructed tree: age 0, maxAge None, generate not yet run. -/
def Tree.init (sp : Species) : Tree :=
  { species := sp, age := 0, maxAge := none, config := none }

/-- Embedding of Tree.set_current_age. -/
def Tree.set_current_age (s : Tree) (age : ℝ) : Tree := { s with age := age }

/-- Embedding of Tree.change_max_age: store maxAge and regenerate. -/
noncomputable def Tree.change_max_age (s : Tree) (maxAge : ℝ) (t : RandomTape) : Tree :=
  { s with maxAge := some maxAge, config := some (Tree.generate maxAge t) }

/-- Dynamic dispatch of the virtual _draw method. -/
noncomputable def speciesDraw (sp : Species) (c : TreeConfig) (age width height : ℝ) :
    List Prim :=
  match sp with
  | .plain => Tree._draw c age width height
  | .green => GreenTree._draw c age width height

/-- The result of one Tree.draw call: the global translation and axis scale
applied to the painter before _draw, plus the emitted primitives. -/
structure Drawing where
  origin : ℝ × ℝ
  axisScale : ℝ × ℝ
  prims : List Prim

/-- Embedding of Tree.draw: return an untouched painter when maxAge is None;
otherwise translate to (width/2, height), flip the vertical axis, and run the
virtual _draw.  The none result models the AttributeError that would occur
if maxAge were set without generate having run (unreachable via the public
interface). -/
noncomputable def Tree.draw (s : Tree) (width height : ℝ) : Option Drawing :=
  match s.maxAge with
  | none => some { origin := (0, 0), axisScale := (1, 1), prims := [] }
  | some _ =>
    match s.config with
    | some c =>
        some
          { origin := (width / 2, height)
            axisScale := (1, -1)
            prims := speciesDraw s.species c s.age width height }
    | none => none

lemma generate_age_coefficient (maxAge : ℝ) (t : RandomTape) :
    (Tree.generate maxAge t).age_coefficient = (maxAge + 1) / 2 := rfl

lemma generate_width_coefficient (maxAge : ℝ) (t : RandomTape) :
    (Tree.generate maxAge t).width_coefficient = uniformDraw 0.9 1.1 t.wcU := rfl

lemma generate_height_coefficient (maxAge : ℝ) (t : RandomTape) :
    (Tree.generate maxAge t).height_coefficient = uniformDraw 0.9 1.1 t.hcU := rfl

lemma generate_branches (maxAge : ℝ) (t : RandomTape) :
    (Tree.generate maxAge t).branches =
      (List.range (pyRound (uniformDraw 1 (2 * ((maxAge + 1) / 2)) t.countU)).toNat).map
        (fun i =>
          (uniformDraw (uniformDraw 0.9 1.1 t.wcU * 0.45) (uniformDraw 0.9 1.1 t.wcU * 0.55)
              (t.posU i),
            (if pyRound (uniformDraw 1 (2 * ((maxAge + 1) / 2)) t.countU) = 2 then
                ((i : ℝ) - 1 / 2) * 2
              else if t.coinU i < 0.5 then -1 else 1) *
              Real.arccos (uniformDraw 0.4 0.6 (t.magU i)))) := rfl

lemma generate_branches_length (maxAge : ℝ) (t : RandomTape) :
    (Tree.generate maxAge t).branches.length =
      (pyRound (uniformDraw 1 (2 * ((maxAge + 1) / 2)) t.countU)).toNat := by
  rw [generate_branches]
  simp

lemma generate_zero_length (t : RandomTape) :
    (Tree.generate 0 t).branches.length = 1 := by
  rw [generate_branches_length]
  norm_num [uniformDraw, pyRound_one]

/-- A concrete run of the random source on which generate produces one branch. -/
def tapeB : RandomTape :=
  { wcU := 0, hcU := 0, countU := 0, posU := fun _ => 0, magU := fun _ => 0,
    coinU := fun _ => 1 }

lemma tapeB_valid : tapeB.Valid := by
  refine ⟨?_, ?_, ?_, fun i => ?_, fun i => ?_⟩ <;>
    simp [tapeB, Set.mem_Icc]

/-- C3: for maxAge in [0,1] with a valid random source, change_max_age stores
exactly the generated configuration, that configuration has 1 or 2 branches,
every branch position lies in [0.45 * wc, 0.55 * wc], and a subsequent
set_current_age leaves the configuration untouched. -/
theorem c3_change_max_age_invariants (maxAge : ℝ) (h0 : 0 ≤ maxAge) (h1 : maxAge ≤ 1)
    (t : RandomTape) (ht : t.Valid) (s : Tree) (a : ℝ) :
    ((Tree.generate maxAge t).branches.length = 1 ∨
        (Tree.generate maxAge t).branches.length = 2) ∧
      (∀ p ∈ (Tree.generate maxAge t).branches,
        0.45 * (Tree.generate maxAge t).width_coefficient ≤ p.1 ∧
          p.1 ≤ 0.55 * (Tree.generate maxAge t).width_coefficient) ∧
      (s.change_max_age maxAge t).config = some (Tree.generate maxAge t) ∧
      ((s.change_max_age maxAge t).set_current_age a).config =
        some (Tree.generate maxAge t) := by
  obtain ⟨hwc, hhc, hcount, hpos, hmag⟩ := ht
  refine ⟨?_, ?_, rfl, rfl⟩
  · rw [generate_branches_length]
    have hab : (1 : ℝ) ≤ 2 * ((maxAge + 1) / 2) := by linarith
    have hd := uniformDraw_mem hab hcount.1 hcount.2
    have hd2 : uniformDraw 1 (2 * ((maxAge + 1) / 2)) t.countU ≤ 2 := by
      have : 2 * ((maxAge + 1) / 2) ≤ 2 := by linarith
      linarith [hd.2]
    rcases pyRound_mem_of_Icc hd.1 hd2 with h | h <;> rw [h] <;> simp
  · intro p hp
    rw [generate_branches] at hp
    simp only [List.mem_map, List.mem_range] at hp
    obtain ⟨i, _, rfl⟩ := hp
    rw [generate_width_coefficient]
    have hw := uniformDraw_mem (a := (0.9 : ℝ)) (b := 1.1) (by norm_num) hwc.1 hwc.2
    have hab : uniformDraw 0.9 1.1 t.wcU * 0.45 ≤ uniformDraw 0.9 1.1 t.wcU * 0.55 := by
      nlinarith [hw.1]
    have hp1 := uniformDraw_mem hab (hpos i).1 (hpos i).2
    constructor
    · calc 0.45 * uniformDraw 0.9 1.1 t.wcU = uniformDraw 0.9 1.1 t.wcU * 0.45 := by ring
        _ ≤ _ := hp1.1
    · calc _ ≤ uniformDraw 0.9 1.1 t.wcU * 0.55 := hp1.2
        _ = 0.55 * uniformDraw 0.9 1.1 t.wcU := by ring

/-- Witness for C3 at maxAge = 1/2 with the concrete tape tapeB, starting from
a fresh green tree and then setting age 0. -/
theorem c3_change_max_age_invariants_witness :
    ((Tree.generate (1 / 2) tapeB).branches.length = 1 ∨
        (Tree.generate (1 / 2) tapeB).branches.length = 2) ∧
      (∀ p ∈ (Tree.generate (1 / 2) tapeB).branches,
        0.45 * (Tree.generate (1 / 2) tapeB).width_coefficient ≤ p.1 ∧
          p.1 ≤ 0.55 * (Tree.generate (1 / 2) tapeB).width_coefficient) ∧
      ((Tree.init Species.green).change_max_age (1 / 2) tapeB).config =
        some (Tree.generate (1 / 2) tapeB) ∧
      (((Tree.init Species.green).change_max_age (1 / 2) tapeB).set_current_age 0).config =
        some (Tree.generate (1 / 2) tapeB) :=
  c3_change_max_age_invariants (1 / 2) (by norm_num) (by norm_num) tapeB tapeB_valid
    (Tree.init Species.green) 0

/-- C10: change_max_age 0 stores the configuration generated at maxAge 0, and
that configuration always has exactly one branch, for every outcome of the
random draws: the age coefficient (0 + 1) / 2 = 0.5 collapses the branch-count
draw uniform(1, 1) to exactly 1, which rounds to 1. -/
theorem c10_max_age_zero_single_branch (t : RandomTape) (s : Tree) :
    (s.change_max_age 0 t).config = some (Tree.generate 0 t) ∧
      (Tree.generate 0 t).branches.length = 1 :=
  ⟨rfl, generate_zero_length t⟩

/-- A concrete run of the random source on which generate produces two
branches whose two magnitude draws differ (0.4 versus 0.6). -/
def tapeA : RandomTape :=
  { wcU := 0, hcU := 0, countU := 1, posU := fun _ => 0,
    magU := fun i => if i = 0 then 0 else 1, coinU := fun _ => 1 }

lemma tapeA_valid : tapeA.Valid := by
  refine ⟨?_, ?_, ?_, fun i => ?_, fun i => ?_⟩
  · norm_num [tapeA, Set.mem_Icc]
  · norm_num [tapeA, Set.mem_Icc]
  · norm_num [tapeA, Set.mem_Icc]
  · norm_num [tapeA, Set.mem_Icc]
  · by_cases h : i = 0 <;> norm_num [tapeA, Set.mem_Icc, h]

lemma generate_tapeA_eval :
    (Tree.generate 1 tapeA).branches =
      [(0.405, -Real.arccos 0.4), (0.405, Real.arccos 0.6)] := by
  rw [generate_branches]
  norm_num [tapeA, uniformDraw, pyRound_two, show ((2 : ℤ).toNat = 2) from rfl,
    List.range_succ]

/-- C2 counterexample: at maxAge 1 with the concrete tape tapeA the branch
list has two entries whose orientations are minus arccos 0.4 and arccos 0.6,
so the first orientation is not the negation of the second. -/
theorem c2_counterexample :
    (Tree.generate 1 tapeA).branches.length = 2 ∧
      ¬ ((Tree.generate 1 tapeA).branches.getD 0 (0, 0)).2 =
          -(((Tree.generate 1 tapeA).branches.getD 1 (0, 0)).2) := by
  rw [generate_tapeA_eval]
  refine ⟨rfl, ?_⟩
  simp only [List.getD_cons_zero, List.getD_cons_succ]
  intro h
  have h2 : Real.arccos 0.4 = Real.arccos 0.6 := by linarith
  have h3 := (Real.arccos_inj (by norm_num) (by norm_num) (by norm_num) (by norm_num)).mp h2
  norm_num at h3

/-- C2 (amended): when the generated branch list has exactly two entries, the
two orientations have opposite signs -- the first is minus arccos of its
magnitude draw and is negative, the second is plus arccos of its own
independent magnitude draw and is positive; the two magnitudes come from two
separate uniform(0.4, 0.6) draws and need not coincide. -/
theorem c2_two_branch_orientations (maxAge : ℝ) (t : RandomTape) (ht : t.Valid)
    (h2 : (Tree.generate maxAge t).branches.length = 2) :
    ((Tree.generate maxAge t).branches.getD 0 (0, 0)).2 =
        -Real.arccos (uniformDraw 0.4 0.6 (t.magU 0)) ∧
      ((Tree.generate maxAge t).branches.getD 1 (0, 0)).2 =
        Real.arccos (uniformDraw 0.4 0.6 (t.magU 1)) ∧
      ((Tree.generate maxAge t).branches.getD 0 (0, 0)).2 < 0 ∧
      0 < ((Tree.generate maxAge t).branches.getD 1 (0, 0)).2 := by
  obtain ⟨-, -, -, -, hmag⟩ := ht
  rw [generate_branches_length] at h2
  have hn : pyRound (uniformDraw 1 (2 * ((maxAge + 1) / 2)) t.countU) = 2 := by omega
  have hb := generate_branches maxAge t
  rw [hn] at hb
  norm_num [show ((2 : ℤ).toNat = 2) from rfl, List.range_succ] at hb
  rw [hb]
  simp only [List.getD_cons_zero, List.getD_cons_succ]
  have hm0 := uniformDraw_mem (a := (0.4 : ℝ)) (b := 0.6) (by norm_num) (hmag 0).1 (hmag 0).2
  have hm1 := uniformDraw_mem (a := (0.4 : ℝ)) (b := 0.6) (by norm_num) (hmag 1).1 (hmag 1).2
  have hp0 : 0 < Real.arccos (uniformDraw 0.4 0.6 (t.magU 0)) :=
    Real.arccos_pos.mpr (by linarith [hm0.2])
  have hp1 : 0 < Real.arccos (uniformDraw 0.4 0.6 (t.magU 1)) :=
    Real.arccos_pos.mpr (by linarith [hm1.2])
  refine ⟨by norm_num, by norm_num, by norm_num; linarith, by norm_num; linarith⟩

/-- Witness for the amended C2 at maxAge 1 with the concrete tape tapeA. -/
theorem c2_two_branch_orientations_witness :
    ((Tree.generate 1 tapeA).branches.getD 0 (0, 0)).2 =
        -Real.arccos (uniformDraw 0.4 0.6 (tapeA.magU 0)) ∧
      ((Tree.generate 1 tapeA).branches.getD 1 (0, 0)).2 =
        Real.arccos (uniformDraw 0.4 0.6 (tapeA.magU 1)) ∧
      ((Tree.generate 1 tapeA).branches.getD 0 (0, 0)).2 < 0 ∧
      0 < ((Tree.generate 1 tapeA).branches.getD 1 (0, 0)).2 :=
  c2_two_branch_orientations 1 tapeA tapeA_valid
    (by rw [generate_tapeA_eval]; rfl)

/-- C4: with the configuration generated at maxAge 1, the trunk polygon has
base vertices at plus and minus width / 15 * wc * ac * smoothen_curve age and
apex at height / 1.7 * hc * ac * smoothen_curve age; at age 0 on a 300 x 300
canvas all three vertices collapse to the origin, and at age 1 the apex height
is 300 / 1.7 * hc * ac. -/
theorem c4_trunk_polygon (t : RandomTape) (age width height : ℝ) :
    (Tree._draw (Tree.generate 1 t) age width height).headI.vertices =
      [(-(width / 15 * (Tree.generate 1 t).width_coefficient *
            (Tree.generate 1 t).age_coefficient * smoothen_curve age), 0),
        (width / 15 * (Tree.generate 1 t).width_coefficient *
            (Tree.generate 1 t).age_coefficient * smoothen_curve age, 0),
        (0, height / 1.7 * (Tree.generate 1 t).height_coefficient *
            (Tree.generate 1 t).age_coefficient * smoothen_curve age)] ∧
      (Tree._draw (Tree.generate 1 t) 0 300 300).headI.vertices =
        [(0, 0), (0, 0), (0, 0)] ∧
      ((Tree._draw (Tree.generate 1 t) 1 300 300).headI.vertices.getD 2 (0, 0)).2 =
        300 / 1.7 * (Tree.generate 1 t).height_coefficient *
          (Tree.generate 1 t).age_coefficient := by
  refine ⟨?_, ?_, ?_⟩
  · simp [Tree._draw, base_width, base_height]
  · simp [Tree._draw, base_width, base_height, smoothen_curve_zero]
  · simp [Tree._draw, base_height, smoothen_curve_one]

/-- C5: the primitive at index i + 1 of Tree._draw is the branch triangle for
branch i: translated to (0, base_height (height * h * smoothen_curve age)),
rotated by the orientation converted to degrees, with half-width and apex
scaled by smoothen_curve (age squared) times (1 - h). -/
theorem c5_branch_primitives (c : TreeConfig) (age width height : ℝ) (i : ℕ)
    (h : i < c.branches.length) :
    (Tree._draw c age width height).getD (i + 1) default =
      { brushColor := (77, 51, 0)
        translate := (0, base_height c (height * (c.branches.getD i (0, 0)).1 *
            smoothen_curve age))
        rotateDeg := degrees (c.branches.getD i (0, 0)).2
        vertices := [(-(branch_width c width * smoothen_curve (age ^ 2) *
              (1 - (c.branches.getD i (0, 0)).1)), 0),
          (branch_width c width * smoothen_curve (age ^ 2) *
              (1 - (c.branches.getD i (0, 0)).1), 0),
          (0, branch_height c height * smoothen_curve (age ^ 2) *
              (1 - (c.branches.getD i (0, 0)).1))] } := by
  unfold Tree._draw
  rw [List.getD_cons_succ]
  rw [List.getD_eq_getElem?_getD, List.getElem?_map, List.getElem?_eq_getElem h]
  rw [List.getD_eq_getElem?_getD, List.getElem?_eq_getElem h]
  simp

/-- Witness for C5: the single branch of the configuration generated at
maxAge 0 from the concrete tape tapeB, at age 1/2 on a 300 x 300 canvas. -/
theorem c5_branch_primitives_witness :
    (Tree._draw (Tree.generate 0 tapeB) (1 / 2) 300 300).getD (0 + 1) default =
      { brushColor := (77, 51, 0)
        translate := (0, base_height (Tree.generate 0 tapeB)
            (300 * ((Tree.generate 0 tapeB).branches.getD 0 (0, 0)).1 *
              smoothen_curve (1 / 2)))
        rotateDeg := degrees ((Tree.generate 0 tapeB).branches.getD 0 (0, 0)).2
        vertices := [(-(branch_width (Tree.generate 0 tapeB) 300 *
              smoothen_curve ((1 / 2) ^ 2) *
              (1 - ((Tree.generate 0 tapeB).branches.getD 0 (0, 0)).1)), 0),
          (branch_width (Tree.generate 0 tapeB) 300 * smoothen_curve ((1 / 2) ^ 2) *
              (1 - ((Tree.generate 0 tapeB).branches.getD 0 (0, 0)).1), 0),
          (0, branch_height (Tree.generate 0 tapeB) 300 * smoothen_curve ((1 / 2) ^ 2) *
              (1 - ((Tree.generate 0 tapeB).branches.getD 0 (0, 0)).1))] } :=
  c5_branch_primitives (Tree.generate 0 tapeB) (1 / 2) 300 300 0
    (by rw [generate_zero_length]; norm_num)

/-- C6: requesting a drawing while maxAge is still None (before any
change_max_age call) returns an untouched painter with no primitives, for
every width, height, and stored age; the not-ready case is an ordinary
return, not a failure. -/
theorem c6_draw_not_ready (s : Tree) (width height : ℝ) (h : s.maxAge = none) :
    Tree.draw s width height =
      some { origin := (0, 0), axisScale := (1, 1), prims := [] } := by
  unfold Tree.draw
  rw [h]

/-- Witness for C6: a freshly constructed green tree on a 300 x 300 canvas. -/
theorem c6_draw_not_ready_witness :
    Tree.draw (Tree.init Species.green) 300 300 =
      some { origin := (0, 0), axisScale := (1, 1), prims := [] } :=
  c6_draw_not_ready (Tree.init Species.green) 300 300 rfl

/-- C7: drawing is deterministic in the stored configuration, age, and canvas
size: two tree states that agree on species, age, maxAge, and configuration
produce identical drawings, and drawing involves no random draw and no state
change. -/
theorem c7_draw_deterministic (s₁ s₂ : Tree) (width height : ℝ)
    (hsp : s₁.species = s₂.species) (ha : s₁.age = s₂.age)
    (hm : s₁.maxAge = s₂.maxAge) (hc : s₁.config = s₂.config) :
    Tree.draw s₁ width height = Tree.draw s₂ width height := by
  obtain ⟨sp₁, a₁, m₁, c₁⟩ := s₁
  obtain ⟨sp₂, a₂, m₂, c₂⟩ := s₂
  simp only at hsp ha hm hc
  subst hsp ha hm hc
  rfl

/-- Witness for C7: a fresh plain tree versus the same tree after an
age-setting call that stores the same age 0. -/
theorem c7_draw_deterministic_witness :
    Tree.draw (Tree.init Species.plain) 300 300 =
      Tree.draw ((Tree.init Species.plain).set_current_age 0) 300 300 :=
  c7_draw_deterministic (Tree.init Species.plain)
    ((Tree.init Species.plain).set_current_age 0) 300 300 rfl rfl rfl rfl

/-- C8: on the same configuration, age, and canvas, the green species emits
exactly the primitives of the plain species preceded by one green foliage
primitive, drawn first so that trunk and branches overlay it. -/
theorem c8_green_plain_refinement (c : TreeConfig) (age width height : ℝ) :
    (speciesDraw Species.green c age width height).tail =
        speciesDraw Species.plain c age width height ∧
      (speciesDraw Species.green c age width height).length =
        (speciesDraw Species.plain c age width height).length + 1 ∧
      (speciesDraw Species.green c age width height).headI.brushColor = (0, 119, 0) ∧
      (speciesDraw Species.plain c age width height).headI.brushColor = (77, 51, 0) := by
  refine ⟨?_, ?_, ?_, ?_⟩
  · simp [speciesDraw, GreenTree._draw]
  · simp [speciesDraw, GreenTree._draw]
  · simp [speciesDraw, GreenTree._draw]
  · simp [speciesDraw, Tree._draw]

/-- C9: the foliage primitive is an isosceles triangle whose half-width and
apex height scale with smoothen_curve age, whose base sits at an offset equal
to 0.3 of the eased trunk height, and whose apex y never exceeds 95 percent
of the canvas height. -/
theorem c9_foliage_polygon (c : TreeConfig) (age width height : ℝ) :
    (GreenTree._draw c age width height).headI.vertices =
      [(-(green_width c width * smoothen_curve age),
          base_height c (height * 0.3 * smoothen_curve age)),
        (green_width c width * smoothen_curve age,
          base_height c (height * 0.3 * smoothen_curve age)),
        (0, min (green_height c height * smoothen_curve age +
              base_height c (height * 0.3 * smoothen_curve age)) (height * 0.95))] ∧
      base_height c (height * 0.3 * smoothen_curve age) =
        0.3 * (smoothen_curve age * base_height c height) ∧
      ((GreenTree._draw c age width height).headI.vertices.getD 2 (0, 0)).2 ≤
        0.95 * height := by
  refine ⟨?_, ?_, ?_⟩
  · simp [GreenTree._draw]
  · unfold base_height; ring
  · simp only [GreenTree._draw, List.headI_cons, List.getD_cons_succ,
      List.getD_cons_zero]
    exact le_trans (min_le_right _ _) (by linarith)

end Trimer
